import Mathlib

/-!
Verification of the pdf-annotator search subsystem.

Shallow embedding of `backend/src/controllers/searchController.js` and the
highlight-deletion flow of `backend/src/controllers/highlightController.js`.
The MongoDB `SearchIndex` collection is modelled as a list of `ContentUnit`
records kept in insertion (natural) order; `createdAt` timestamps are drawn
from a strictly increasing counter, so a `sort createdAt descending` issued
by the code is realized by a sort on the `createdAt` field.  Mongo queries
(`find`, `findOne`, `countDocuments`, `deleteOne`, `findOneAndDelete`) become
list traversals with the same filter semantics; the case-insensitive
`$regex` content match is the case-insensitive substring match the queries
use it for.  Each controller operation also returns the trace of storage
operations it issued, so that claims about *which* queries run can be stated.
-/

namespace PdfAnnotator

/-- ASCII lower-casing of one character (`String.prototype.toLowerCase`
restricted to ASCII, which is all the controllers rely on). -/
def lowerChar (c : Char) : Char :=
  if 'A' ≤ c && c ≤ 'Z' then Char.ofNat (c.toNat + 32) else c

/-- JS `s.toLowerCase()`. -/
def jsToLower (s : String) : String :=
  String.mk (s.toList.map lowerChar)

/-- JS `s.trim()`: strip leading and trailing whitespace. -/
def jsTrim (s : String) : String :=
  String.mk (((s.toList.dropWhile Char.isWhitespace).reverse.dropWhile
    Char.isWhitespace).reverse)

/-- JS `s.length` (code points; the controllers only compare against 2). -/
def jsLength (s : String) : Nat :=
  s.toList.length

/-- JS `needle` is a (case-sensitive) substring of the character list. -/
def listInfix (needle : List Char) : List Char → Bool
  | [] => needle.isEmpty
  | c :: rest => needle.isPrefixOf (c :: rest) || listInfix needle rest

/-- Case-insensitive substring match: the semantics of the controllers'
`content: \x7b $regex: query, $options: 'i' \x7d` filters (queries are used as
plain text). -/
def containsCI (s pat : String) : Bool :=
  listInfix ((jsToLower pat).toList) ((jsToLower s).toList)

/-- Split a character list at every occurrence of characters satisfying
`sep`, keeping empty segments (JS `split(' ')`; for `split(/\s+/)` the empty
segments produced between consecutive separators are discarded downstream by
every caller, so the two readings are indistinguishable there). -/
def splitSepAux (sep : Char → Bool) (acc : List Char) :
    List Char → List (List Char)
  | [] => [acc.reverse]
  | c :: rest =>
    if sep c then acc.reverse :: splitSepAux sep [] rest
    else splitSepAux sep (c :: acc) rest

/-- JS `s.split(sep)` with a character-class separator. -/
def jsSplit (sep : Char → Bool) (s : String) : List String :=
  (splitSepAux sep [] s.toList).map String.mk

/-- JS `\w` character class: ASCII alphanumeric or underscore. -/
def isWordChar (c : Char) : Bool :=
  c.isAlphanum || c == '_'

/-- `word.replace(/[^\w]/g, '').toLowerCase()` from `getSuggestions`. -/
def cleanWord (w : String) : String :=
  String.mk ((w.toList.filter isWordChar).map lowerChar)

/-- `contentType` values of the `SearchIndex` schema. -/
inductive ContentType
  | pdf_text
  | annotation
deriving DecidableEq, Repr

/-- String name of a content kind, as stored in Mongo. -/
def ContentType.str : ContentType → String
  | ContentType.pdf_text => "pdf_text"
  | ContentType.annotation => "annotation"

/-- Highlight position rectangle. -/
structure Position where
  x : Int
  y : Int
  width : Int
  height : Int
deriving DecidableEq, Repr

/-- One `SearchIndex` document (a ContentUnit of the spec).  `highlightId`
is absent (`none`) for `pdf_text` units. -/
structure ContentUnit where
  id : Nat
  pdfUuid : String
  userId : Nat
  pageNumber : Nat
  content : String
  contentType : ContentType
  position : Option Position
  highlightId : Option String
  createdAt : Nat
deriving DecidableEq, Repr

/-- One `Highlight` document (the source annotation). -/
structure Highlight where
  uuid : String
  pdfUuid : String
  userId : Nat
  pageNumber : Nat
  highlightedText : String
  position : Option Position
deriving DecidableEq, Repr

/-- One `PDF` document (only the fields the search subsystem reads). -/
structure PdfDoc where
  uuid : String
  userId : Nat
  originalName : String
deriving DecidableEq, Repr

/-- Database state: the collections the subsystem touches, plus a fresh-id
counter that also serves as the creation clock. -/
structure DB where
  nextId : Nat
  index : List ContentUnit
  highlights : List Highlight
  pdfs : List PdfDoc
deriving DecidableEq, Repr

/-- Filter built by `search` (and, without the optional parts, by
`getSuggestions`): owner, case-insensitive content substring, optional
`pdfUuid` equality, optional `contentType` equality. -/
structure SimpleFilter where
  userId : Nat
  query : String
  pdfUuid : Option String
  contentType : Option String
deriving DecidableEq, Repr

/-- Mongo evaluation of a `SimpleFilter` against one unit. -/
def matchesSimple (f : SimpleFilter) (u : ContentUnit) : Bool :=
  u.userId == f.userId
    && containsCI u.content f.query
    && (match f.pdfUuid with
        | none => true
        | some p => u.pdfUuid == p)
    && (match f.contentType with
        | none => true
        | some ct => u.contentType.str == ct)

/-- Filter built by `advancedSearch`: all dimensions compose conjunctively. -/
structure AdvFilter where
  userId : Nat
  query : String
  pdfUuids : List String
  contentTypes : List String
  dateFrom : Option Nat
  dateTo : Option Nat
  pageNumber : Option Nat
deriving DecidableEq, Repr

/-- Mongo evaluation of an `AdvFilter` against one unit.  An empty
`pdfUuids` list and a `contentTypes` list containing `"all"` impose no
constraint, mirroring the conditional filter construction in the source. -/
def matchesAdv (f : AdvFilter) (u : ContentUnit) : Bool :=
  u.userId == f.userId
    && containsCI u.content f.query
    && (f.pdfUuids.isEmpty || f.pdfUuids.contains u.pdfUuid)
    && (f.contentTypes.contains "all" || f.contentTypes.contains u.contentType.str)
    && (match f.dateFrom with
        | none => true
        | some d => d ≤ u.createdAt)
    && (match f.dateTo with
        | none => true
        | some d => u.createdAt ≤ d)
    && (match f.pageNumber with
        | none => true
        | some p => u.pageNumber == p)

/-- Stable descending insertion of a unit into a `createdAt`-descending
list (realizes Mongoose `.sort(\x7b createdAt: -1 \x7d)`). -/
def insertDesc (u : ContentUnit) : List ContentUnit → List ContentUnit
  | [] => [u]
  | v :: rest =>
    if u.createdAt ≤ v.createdAt then v :: insertDesc u rest
    else u :: v :: rest

/-- Sort units by `createdAt` descending. -/
def sortByCreatedAtDesc (l : List ContentUnit) : List ContentUnit :=
  l.foldr insertDesc []

/-- JS `[...new Set(xs)]`: distinct elements in first-occurrence order. -/
def dedupFirstAux (seen : List String) : List String → List String
  | [] => []
  | x :: xs =>
    if seen.contains x then dedupFirstAux seen xs
    else x :: dedupFirstAux (x :: seen) xs

/-- Distinct strings of a list, first occurrences first. -/
def dedupFirst (l : List String) : List String :=
  dedupFirstAux [] l

/-- One pass of `highlighted.replace(new RegExp('(term)', 'gi'),
'<mark>$1</mark>')` for a literal term: wrap every case-insensitive,
leftmost, non-overlapping occurrence of `term`.  Fuel is the length of the
string being scanned, an upper bound on the number of scan steps. -/
def wrapTermGo (fuel : Nat) (term : List Char) (s : List Char) : List Char :=
  match fuel, s with
  | 0, s => s
  | _, [] => []
  | fuel + 1, c :: rest =>
    if term.isEmpty then c :: rest
    else if (term.map lowerChar).isPrefixOf ((c :: rest).map lowerChar) then
      "<mark>".toList ++ (c :: rest).take term.length ++ "</mark>".toList
        ++ wrapTermGo fuel term ((c :: rest).drop term.length)
    else c :: wrapTermGo fuel term rest

/-- Wrap every case-insensitive occurrence of `term` in `s` with the
`<mark>` emphasis marker. -/
def wrapTerm (term : String) (s : String) : String :=
  String.mk (wrapTermGo s.toList.length term.toList s.toList)

/-- `highlightSearchTerms` (searchController.js lines 6-16): split the query
on spaces, keep terms of length > 1, and wrap each term's occurrences in
turn (sequential `forEach` over terms = left fold). -/
def highlightSearchTerms (content query : String) : String :=
  let terms := (jsSplit (· == ' ') query).filter (fun t => 1 < jsLength t)
  terms.foldl (fun acc t => wrapTerm t acc) content

/-- Storage operations a request issues, in order (the trace lets claims
about "no storage access" / "no content query" be stated). -/
inductive StoreOp
  | countIndex (userId : Nat)
  | findIndex (f : SimpleFilter)
  | findAdvIndex (f : AdvFilter)
  | findOneIndex (highlightId : String) (userId : Nat)
  | insertIndex (u : ContentUnit)
  | deleteOneIndex (highlightId : String) (userId : Nat)
  | findHighlights (userId : Nat)
  | findPdfs (uuids : List String) (userId : Nat)
deriving DecidableEq, Repr

/-- `SearchIndex.countDocuments(\x7b userId \x7d)`. -/
def countByOwner (db : DB) (uid : Nat) : Nat :=
  (db.index.filter (fun u => u.userId == uid)).length

/-- The `SearchIndex.create(...)` payload used by both `indexHighlight` and
`autoIndexHighlights`: an `annotation` unit copying the highlight's fields.
`id`/`createdAt` come from the creation counter. -/
def mkUnit (stamp : Nat) (h : Highlight) (uid : Nat) : ContentUnit :=
  { id := stamp
    pdfUuid := h.pdfUuid
    userId := uid
    pageNumber := h.pageNumber
    content := h.highlightedText
    contentType := ContentType.annotation
    position := h.position
    highlightId := some h.uuid
    createdAt := stamp }

/-- The `(highlightId, userId)` lookup filter shared by `indexHighlight`,
`autoIndexHighlights` and `removeHighlightIndex`. -/
def hlMatch (hid : String) (uid : Nat) (u : ContentUnit) : Bool :=
  u.highlightId == some hid && u.userId == uid

/-- `indexHighlight` (searchController.js lines 284-312): look up an
existing unit by `(highlightId, userId)`; if found do nothing, otherwise
insert the annotation unit. -/
def indexHighlight (h : Highlight) (uid : Nat) (db : DB) : DB :=
  if db.index.any (hlMatch h.uuid uid)
  then db
  else { db with
          nextId := db.nextId + 1
          index := db.index ++ [mkUnit db.nextId h uid] }

/-- Mongoose `deleteOne(\x7b highlightId, userId \x7d)`: remove the first
matching document, if any. -/
def deleteOneUnit (hid : String) (uid : Nat) :
    List ContentUnit → List ContentUnit
  | [] => []
  | u :: us =>
    if hlMatch hid uid u then us
    else u :: deleteOneUnit hid uid us

/-- `removeHighlightIndex` (searchController.js lines 315-325). -/
def removeHighlightIndex (hid : String) (uid : Nat) (db : DB) : DB :=
  { db with index := deleteOneUnit hid uid db.index }

/-- The loop body of `autoIndexHighlights` (searchController.js lines
157-176), with `fail h = true` meaning `SearchIndex.create` throws for that
highlight.  The `try/catch` of the source wraps the WHOLE loop, so a throw
aborts the remaining iterations; units created before the failure persist.
Returns the final database and the trace of storage operations issued. -/
def autoIndexLoop (fail : Highlight → Bool) (uid : Nat) :
    List Highlight → DB → DB × List StoreOp
  | [], db => (db, [])
  | h :: hs, db =>
    if db.index.any (hlMatch h.uuid uid) then
      ((autoIndexLoop fail uid hs db).1,
        StoreOp.findOneIndex h.uuid uid :: (autoIndexLoop fail uid hs db).2)
    else if fail h then
      (db, [StoreOp.findOneIndex h.uuid uid])
    else
      ((autoIndexLoop fail uid hs
          { db with
            nextId := db.nextId + 1
            index := db.index ++ [mkUnit db.nextId h uid] }).1,
        StoreOp.findOneIndex h.uuid uid
          :: StoreOp.insertIndex (mkUnit db.nextId h uid)
          :: (autoIndexLoop fail uid hs
              { db with
                nextId := db.nextId + 1
                index := db.index ++ [mkUnit db.nextId h uid] }).2)

/-- `autoIndexHighlights` (searchController.js lines 150-182): enumerate
the owner's highlights and index each one that is not yet indexed.  Errors
are caught at the top and swallowed. -/
def autoIndexHighlights (fail : Highlight → Bool) (uid : Nat) (db : DB) :
    DB × List StoreOp :=
  ((autoIndexLoop fail uid (db.highlights.filter (fun h => h.userId == uid)) db).1,
    StoreOp.findHighlights uid
      :: (autoIndexLoop fail uid
          (db.highlights.filter (fun h => h.userId == uid)) db).2)

/-- `Math.ceil(a / b)` on naturals. -/
def ceilDiv (a b : Nat) : Nat :=
  (a + b - 1) / b

/-- Pagination block of the response bodies. -/
structure Pagination where
  current : Nat
  pages : Nat
  total : Nat
deriving DecidableEq, Repr

/-- One formatted search result (the object literal built by both `search`
and `advancedSearch`). -/
structure FormattedResult where
  id : Nat
  pdfUuid : String
  pdfName : String
  pageNumber : Nat
  content : String
  highlightedContent : String
  contentType : ContentType
  score : Nat
  highlightId : Option String
  position : Option Position
  createdAt : Nat
deriving DecidableEq, Repr

/-- `PDF.find(\x7b uuid: \x7b $in: uuids \x7d, userId \x7d)` followed by the
`pdfMap` lookup with the `'Unknown PDF'` fallback. -/
def pdfNameFor (db : DB) (uid : Nat) (uuids : List String)
    (uuid : String) : String :=
  match (db.pdfs.filter
      (fun p => uuids.contains p.uuid && p.userId == uid)).find?
      (fun p => p.uuid == uuid) with
  | some p => p.originalName
  | none => "Unknown PDF"

/-- The per-result formatting shared by `search` and `advancedSearch`. -/
def formatResult (db : DB) (uid : Nat) (uuids : List String) (query : String)
    (u : ContentUnit) : FormattedResult :=
  { id := u.id
    pdfUuid := u.pdfUuid
    pdfName := pdfNameFor db uid uuids u.pdfUuid
    pageNumber := u.pageNumber
    content := u.content
    highlightedContent := highlightSearchTerms u.content query
    contentType := u.contentType
    score := 1
    highlightId := u.highlightId
    position := u.position
    createdAt := u.createdAt }

/-- Response body of the simple `search` endpoint.  Fields absent from a
given JSON body are `none` / `false` here. -/
structure SearchResponse where
  status : Nat
  error : Option String := none
  results : List FormattedResult := []
  pagination : Pagination
  message : Option String := none
  needsIndexing : Bool := false
  query : Option String := none
deriving DecidableEq, Repr

/-- Result of one `search` request: response, database afterwards, and the
trace of storage operations issued. -/
structure SearchEffect where
  resp : SearchResponse
  db : DB
  ops : List StoreOp
deriving Repr

/-- `search` (searchController.js lines 19-147).  `fail` says which
highlight inserts would throw during a triggered backfill. -/
def search (fail : Highlight → Bool) (uid : Nat) (query : Option String)
    (pdfUuid : Option String) (contentType : String) (db : DB) :
    SearchEffect :=
  match query with
  | none =>
    { resp := { status := 400
                error := some "Search query must be at least 2 characters"
                pagination := ⟨1, 0, 0⟩ }
      db := db, ops := [] }
  | some q =>
    if jsLength (jsTrim q) < 2 then
      { resp := { status := 400
                  error := some "Search query must be at least 2 characters"
                  pagination := ⟨1, 0, 0⟩ }
        db := db, ops := [] }
    else if countByOwner db uid == 0 then
      { resp := { status := 200
                  pagination := ⟨1, 0, 0⟩
                  message := some "No content indexed yet. Please create some highlights or upload PDFs to search."
                  needsIndexing := true }
        db := (autoIndexHighlights fail uid db).1
        ops := StoreOp.countIndex uid :: (autoIndexHighlights fail uid db).2 }
    else
      let f : SimpleFilter :=
        { userId := uid
          query := q
          pdfUuid := pdfUuid
          contentType := if contentType == "all" then none else some contentType }
      let raw := (sortByCreatedAtDesc (db.index.filter (matchesSimple f))).take 20
      let uuids := dedupFirst (raw.map (fun r => r.pdfUuid))
      let pdfOps := if uuids.isEmpty then [] else [StoreOp.findPdfs uuids uid]
      { resp := { status := 200
                  results := raw.map (formatResult db uid uuids q)
                  pagination := ⟨1, ceilDiv raw.length 20, raw.length⟩
                  query := some q }
        db := db
        ops := StoreOp.countIndex uid :: StoreOp.findIndex f :: pdfOps }

/-- One suggestion entry `\x7b text, count: 1 \x7d`. -/
structure Suggestion where
  text : String
  count : Nat
deriving DecidableEq, Repr

/-- Token extraction of `getSuggestions` (searchController.js lines
200-211): split each content on whitespace, clean and lower-case each word,
keep those that extend the lower-cased query, distinct in insertion order
(JS `Set`). -/
def suggestionTokens (queryLower : String) (contents : List String) :
    List String :=
  dedupFirst ((contents.flatMap
    (fun c => (jsSplit Char.isWhitespace c).map cleanWord)).filter
    (fun w => queryLower.toList.isPrefixOf w.toList
      && jsLength queryLower < jsLength w))

/-- `getSuggestions` (searchController.js lines 185-225): raw (untrimmed)
query length must be at least 2; scan the first 5 matching units in store
order (the source issues no sort on this query); return at most 5 distinct
tokens, each with placeholder count 1.  Also returns the storage trace. -/
def getSuggestions (uid : Nat) (query : Option String) (db : DB) :
    List Suggestion × List StoreOp :=
  match query with
  | none => ([], [])
  | some q =>
    if jsLength q < 2 then ([], [])
    else
      let f : SimpleFilter :=
        { userId := uid, query := q, pdfUuid := none, contentType := none }
      let scanned := (db.index.filter (matchesSimple f)).take 5
      let toks :=
        (suggestionTokens (jsToLower q) (scanned.map (fun u => u.content))).take 5
      (toks.map (fun t => { text := t, count := 1 }), [StoreOp.findIndex f])

/-- Request body of `advancedSearch`, with the source's defaults. -/
structure AdvRequest where
  query : Option String
  pdfUuids : List String := []
  contentTypes : List String := ["all"]
  dateFrom : Option Nat := none
  dateTo : Option Nat := none
  pageNumber : Option Nat := none
  fuzzy : Bool := false
  page : Nat := 1
  limit : Nat := 20
deriving DecidableEq, Repr

/-- Response body of `advancedSearch`; `fuzzy` is `none` on the 400 body
(which carries no such field) and `some false` on the success body. -/
structure AdvResponse where
  status : Nat
  error : Option String := none
  results : List FormattedResult := []
  pagination : Pagination
  query : Option String := none
  fuzzy : Option Bool := none
deriving DecidableEq, Repr

/-- `advancedSearch` (searchController.js lines 328-447). -/
def advancedSearch (uid : Nat) (r : AdvRequest) (db : DB) :
    AdvResponse × List StoreOp :=
  match r.query with
  | none =>
    ({ status := 400
       error := some "Search query must be at least 2 characters"
       pagination := ⟨1, 0, 0⟩ }, [])
  | some q =>
    if jsLength (jsTrim q) < 2 then
      ({ status := 400
         error := some "Search query must be at least 2 characters"
         pagination := ⟨1, 0, 0⟩ }, [])
    else
      let f : AdvFilter :=
        { userId := uid
          query := q
          pdfUuids := r.pdfUuids
          contentTypes := r.contentTypes
          dateFrom := r.dateFrom
          dateTo := r.dateTo
          pageNumber := r.pageNumber }
      let all := db.index.filter (matchesAdv f)
      let total := all.length
      let raw :=
        ((sortByCreatedAtDesc all).drop ((r.page - 1) * r.limit)).take r.limit
      let uuids := dedupFirst (raw.map (fun u => u.pdfUuid))
      let pdfOps := if uuids.isEmpty then [] else [StoreOp.findPdfs uuids uid]
      ({ status := 200
         results := raw.map (formatResult db uid uuids q)
         pagination := ⟨r.page, ceilDiv total r.limit, total⟩
         query := some q
         fuzzy := some false }, StoreOp.findAdvIndex f :: pdfOps)

/-- Outcome of the highlight-deletion flow. -/
inductive DeleteOutcome
  | deleted
  | notFound
  | serverError
deriving DecidableEq, Repr

/-- Mongoose `Highlight.findOneAndDelete(\x7b uuid, userId \x7d)`: remove and
return the first matching highlight, if any. -/
def findOneAndDeleteHighlight (uuid : String) (uid : Nat) :
    List Highlight → Option Highlight × List Highlight
  | [] => (none, [])
  | h :: hs =>
    if h.uuid == uuid && h.userId == uid then (some h, hs)
    else
      ((findOneAndDeleteHighlight uuid uid hs).1,
        h :: (findOneAndDeleteHighlight uuid uid hs).2)

/-- `delete` (highlightController.js lines 132-151).  The source calls
`removeHighlightIndex(highlight.uuid, ...)` BEFORE the `if (!highlight)`
check; when the lookup returned null, that property access throws a
TypeError which the `catch` forwards to `next(error)` (a server error), so
the 404 branch is unreachable. -/
def deleteHighlight (uuid : String) (uid : Nat) (db : DB) :
    DeleteOutcome × DB :=
  match (findOneAndDeleteHighlight uuid uid db.highlights).1 with
  | none =>
    (.serverError,
      { db with highlights := (findOneAndDeleteHighlight uuid uid db.highlights).2 })
  | some h =>
    (.deleted,
      removeHighlightIndex h.uuid uid
        { db with highlights := (findOneAndDeleteHighlight uuid uid db.highlights).2 })

/-- The claim's reading of suggestion extraction, for comparison with
`getSuggestions`: identical except that it scans the 5 MOST-RECENT matching
units (sorted by `createdAt` descending) instead of the first 5 in store
order.  The source issues no sort on the suggestions query, so the two
differ. -/
def getSuggestionsMostRecent (uid : Nat) (query : Option String) (db : DB) :
    List Suggestion × List StoreOp :=
  match query with
  | none => ([], [])
  | some q =>
    if jsLength q < 2 then ([], [])
    else
      let f : SimpleFilter :=
        { userId := uid, query := q, pdfUuid := none, contentType := none }
      let scanned :=
        (sortByCreatedAtDesc (db.index.filter (matchesSimple f))).take 5
      let toks :=
        (suggestionTokens (jsToLower q) (scanned.map (fun u => u.content))).take 5
      (toks.map (fun t => { text := t, count := 1 }), [StoreOp.findIndex f])

/-- An annotation unit used by the concrete databases below. -/
def annUnit (stamp : Nat) (uid : Nat) (hid : String) (c : String) :
    ContentUnit :=
  { id := stamp
    pdfUuid := "p1"
    userId := uid
    pageNumber := 1
    content := c
    contentType := ContentType.annotation
    position := none
    highlightId := some hid
    createdAt := stamp }

/-- Database with one indexed annotation of user 1; used as a concrete
instance for the isolation claim. -/
def dbC2 : DB :=
  { nextId := 1
    index := [annUnit 0 1 "h1" "hello world"]
    highlights := []
    pdfs := [{ uuid := "p1", userId := 1, originalName := "Doc.pdf" }] }

/-- The formatted result `search` returns for `dbC2` and query "hello". -/
def resC2 : FormattedResult :=
  { id := 0
    pdfUuid := "p1"
    pdfName := "Doc.pdf"
    pageNumber := 1
    content := "hello world"
    highlightedContent := "<mark>hello</mark> world"
    contentType := ContentType.annotation
    score := 1
    highlightId := some "h1"
    position := none
    createdAt := 0 }

/-- A concrete highlight of user 1. -/
def hlW : Highlight :=
  { uuid := "h1", pdfUuid := "p1", userId := 1, pageNumber := 3,
    highlightedText := "machine learning basics", position := none }

/-- Database with an empty index and one existing highlight of user 1;
exercises the zero-index fallback. -/
def dbC3 : DB :=
  { nextId := 0
    index := []
    highlights := [hlW]
    pdfs := [] }

/-- First highlight of `dbC6`; its insert throws during backfill. -/
def hlC6a : Highlight :=
  { uuid := "h1", pdfUuid := "p1", userId := 1, pageNumber := 1,
    highlightedText := "alpha", position := none }

/-- Second highlight of `dbC6`; never reached by the aborted backfill. -/
def hlC6b : Highlight :=
  { uuid := "h2", pdfUuid := "p1", userId := 1, pageNumber := 2,
    highlightedText := "beta", position := none }

/-- Two not-yet-indexed highlights of user 1; indexing the first throws. -/
def dbC6 : DB :=
  { nextId := 0
    index := []
    highlights := [hlC6a, hlC6b]
    pdfs := [] }

/-- Is a formatted result of annotation kind? -/
def isAnnotationResult (res : FormattedResult) : Bool :=
  res.contentType == ContentType.annotation

/-- A `pdf_text` unit (no `highlightId`) whose content equals the text of
`hlC5`. -/
def pdfUnitC5 : ContentUnit :=
  { id := 0, pdfUuid := "p1", userId := 1, pageNumber := 1,
    content := "machine learning basics", contentType := ContentType.pdf_text,
    position := none, highlightId := none, createdAt := 0 }

/-- Store with one `pdf_text` unit and one unrelated annotation unit of
user 1. -/
def dbC5 : DB :=
  { nextId := 2
    index := [pdfUnitC5, annUnit 1 1 "hx" "unrelated words"]
    highlights := []
    pdfs := [] }

/-- The highlight indexed and removed in the C5 round trip. -/
def hlC5 : Highlight :=
  { uuid := "h1", pdfUuid := "p1", userId := 1, pageNumber := 1,
    highlightedText := "machine learning basics", position := none }

/-- Failure model for `dbC6`: `SearchIndex.create` throws for highlight
`h1` only. -/
def failC6 : Highlight → Bool := fun h => h.uuid == "h1"

/-- Six units matching query "al" for user 1: the five oldest say "alone",
the most recent says "almond". -/
def dbC8 : DB :=
  { nextId := 6
    index := [annUnit 0 1 "h0" "alone", annUnit 1 1 "h1" "alone",
              annUnit 2 1 "h2" "alone", annUnit 3 1 "h3" "alone",
              annUnit 4 1 "h4" "alone", annUnit 5 1 "h5" "almond"]
    highlights := []
    pdfs := [] }

/-- One unit whose content matches "machine" only under typo-tolerant
comparison. -/
def dbC9 : DB :=
  { nextId := 1
    index := [annUnit 0 1 "h1" "machne lerning"]
    highlights := []
    pdfs := [] }

/-- One highlight, owned by user 2; user 1's delete of its uuid finds
nothing. -/
def dbC10 : DB :=
  { nextId := 0
    index := []
    highlights := [{ uuid := "h9", pdfUuid := "p1", userId := 2,
                     pageNumber := 1, highlightedText := "secret", position := none }]
    pdfs := [] }

/-! ## Helper lemmas -/

theorem mem_of_mem_insertDesc {x u : ContentUnit} {l : List ContentUnit}
    (h : x ∈ insertDesc u l) : x = u ∨ x ∈ l := by
  induction l with
  | nil => simpa [insertDesc] using h
  | cons v rest ih =>
    simp only [insertDesc] at h
    split at h
    · rcases List.mem_cons.mp h with h | h
      · exact Or.inr (List.mem_cons.mpr (Or.inl h))
      · rcases ih h with h | h
        · exact Or.inl h
        · exact Or.inr (List.mem_cons.mpr (Or.inr h))
    · rcases List.mem_cons.mp h with h | h
      · exact Or.inl h
      · exact Or.inr h

theorem mem_of_mem_sortDesc {x : ContentUnit} {l : List ContentUnit}
    (h : x ∈ sortByCreatedAtDesc l) : x ∈ l := by
  induction l with
  | nil => simp [sortByCreatedAtDesc] at h
  | cons a rest ih =>
    have h' : x ∈ insertDesc a (sortByCreatedAtDesc rest) := h
    rcases mem_of_mem_insertDesc h' with h'' | h''
    · exact List.mem_cons.mpr (Or.inl h'')
    · exact List.mem_cons.mpr (Or.inr (ih h''))

theorem mem_of_mem_dedupFirstAux {x : String} {seen l : List String}
    (h : x ∈ dedupFirstAux seen l) : x ∈ l := by
  induction l generalizing seen with
  | nil => simp [dedupFirstAux] at h
  | cons a rest ih =>
    simp only [dedupFirstAux] at h
    split at h
    · exact List.mem_cons.mpr (Or.inr (ih h))
    · rcases List.mem_cons.mp h with h | h
      · exact List.mem_cons.mpr (Or.inl h)
      · exact List.mem_cons.mpr (Or.inr (ih h))

theorem mem_seen_of_dedupFirstAux {x : String} {seen l : List String}
    (h : x ∈ dedupFirstAux seen l) : ¬ x ∈ seen := by
  induction l generalizing seen with
  | nil => simp [dedupFirstAux] at h
  | cons a rest ih =>
    simp only [dedupFirstAux] at h
    split at h
    · exact ih h
    · rename_i hseen
      rcases List.mem_cons.mp h with h | h
      · subst h
        simpa using hseen
      · intro hx
        exact ih h (List.mem_cons.mpr (Or.inr hx))

theorem nodup_dedupFirstAux (seen l : List String) :
    (dedupFirstAux seen l).Nodup := by
  induction l generalizing seen with
  | nil => simp [dedupFirstAux]
  | cons a rest ih =>
    simp only [dedupFirstAux]
    split
    · exact ih seen
    · refine List.nodup_cons.mpr ⟨?_, ih (a :: seen)⟩
      intro hmem
      exact mem_seen_of_dedupFirstAux hmem (List.mem_cons.mpr (Or.inl rfl))

theorem matchesSimple_userId {f : SimpleFilter} {u : ContentUnit}
    (h : matchesSimple f u = true) : u.userId = f.userId := by
  simp only [matchesSimple, Bool.and_eq_true, beq_iff_eq] at h
  exact h.1.1.1

theorem matchesSimple_content {f : SimpleFilter} {u : ContentUnit}
    (h : matchesSimple f u = true) : containsCI u.content f.query = true := by
  simp only [matchesSimple, Bool.and_eq_true] at h
  exact h.1.1.2

theorem matchesAdv_userId {f : AdvFilter} {u : ContentUnit}
    (h : matchesAdv f u = true) : u.userId = f.userId := by
  simp only [matchesAdv, Bool.and_eq_true, beq_iff_eq] at h
  exact h.1.1.1.1.1.1

theorem matchesAdv_content {f : AdvFilter} {u : ContentUnit}
    (h : matchesAdv f u = true) : containsCI u.content f.query = true := by
  simp only [matchesAdv, Bool.and_eq_true] at h
  exact h.1.1.1.1.1.2

theorem length_deleteOneUnit_le (hid : String) (uid : Nat)
    (l : List ContentUnit) : (deleteOneUnit hid uid l).length ≤ l.length := by
  induction l with
  | nil => simp [deleteOneUnit]
  | cons u us ih =>
    simp only [deleteOneUnit]
    split
    · simp
    · simpa using Nat.succ_le_succ ih

theorem length_le_deleteOneUnit (hid : String) (uid : Nat)
    (l : List ContentUnit) :
    l.length ≤ (deleteOneUnit hid uid l).length + 1 := by
  induction l with
  | nil => simp [deleteOneUnit]
  | cons u us ih =>
    simp only [deleteOneUnit]
    split
    · simp
    · simp only [List.length_cons]
      omega

theorem mem_deleteOneUnit_of_not_match {hid : String} {uid : Nat}
    {u : ContentUnit} {l : List ContentUnit} (hu : u ∈ l)
    (hm : hlMatch hid uid u = false) :
    u ∈ deleteOneUnit hid uid l := by
  induction l with
  | nil => simp at hu
  | cons v vs ih =>
    simp only [deleteOneUnit]
    split
    · rename_i hv
      rcases List.mem_cons.mp hu with h | h
      · subst h
        rw [hv] at hm
        simp at hm
      · exact h
    · rcases List.mem_cons.mp hu with h | h
      · exact List.mem_cons.mpr (Or.inl h)
      · exact List.mem_cons.mpr (Or.inr (ih h))

theorem deleteOneUnit_append_singleton {hid : String} {uid : Nat}
    {l : List ContentUnit} {v : ContentUnit}
    (hl : ∀ u ∈ l, hlMatch hid uid u = false)
    (hv : hlMatch hid uid v = true) :
    deleteOneUnit hid uid (l ++ [v]) = l := by
  induction l with
  | nil => simp [deleteOneUnit, hv]
  | cons u us ih =>
    have hu := hl u (List.mem_cons.mpr (Or.inl rfl))
    simp only [List.cons_append, deleteOneUnit, hu]
    simp only [Bool.false_eq_true, if_false, List.append_eq]
    rw [ih (fun w hw => hl w (List.mem_cons.mpr (Or.inr hw)))]

theorem findIndex_not_mem_autoIndexLoop (fail : Highlight → Bool) (uid : Nat)
    (hs : List Highlight) (db : DB) (f : SimpleFilter) :
    StoreOp.findIndex f ∉ (autoIndexLoop fail uid hs db).2 := by
  induction hs generalizing db with
  | nil => simp [autoIndexLoop]
  | cons h rest ih =>
    simp only [autoIndexLoop]
    split
    · simpa using ih db
    · split
      · simp
      · simpa using ih _

theorem result_mem_source {db : DB} {uid : Nat} {uuids : List String}
    {q : String} {f : SimpleFilter} {n : Nat} {res : FormattedResult}
    (h : res ∈ ((sortByCreatedAtDesc (db.index.filter (matchesSimple f))).take n).map
      (formatResult db uid uuids q)) :
    ∃ u ∈ db.index, matchesSimple f u = true
      ∧ formatResult db uid uuids q u = res := by
  rcases List.mem_map.mp h with ⟨u, hu, hf⟩
  have hu' : u ∈ sortByCreatedAtDesc (db.index.filter (matchesSimple f)) :=
    List.take_subset n _ hu
  have hu'' := mem_of_mem_sortDesc hu'
  rcases List.mem_filter.mp hu'' with ⟨hmem, hmatch⟩
  exact ⟨u, hmem, hmatch, hf⟩

theorem result_mem_source_adv {db : DB} {uid : Nat} {uuids : List String}
    {q : String} {f : AdvFilter} {k n : Nat} {res : FormattedResult}
    (h : res ∈ (((sortByCreatedAtDesc (db.index.filter (matchesAdv f))).drop k).take n).map
      (formatResult db uid uuids q)) :
    ∃ u ∈ db.index, matchesAdv f u = true
      ∧ formatResult db uid uuids q u = res := by
  rcases List.mem_map.mp h with ⟨u, hu, hf⟩
  have hu' : u ∈ sortByCreatedAtDesc (db.index.filter (matchesAdv f)) :=
    List.drop_subset k _ (List.take_subset n _ hu)
  have hu'' := mem_of_mem_sortDesc hu'
  rcases List.mem_filter.mp hu'' with ⟨hmem, hmatch⟩
  exact ⟨u, hmem, hmatch, hf⟩

theorem search_results_shape (fail : Highlight → Bool) (uid : Nat)
    (q : String) (pdfU : Option String) (ct : String) (db : DB) :
    (search fail uid (some q) pdfU ct db).resp.results = []
    ∨ ∃ uuids : List String,
        (search fail uid (some q) pdfU ct db).resp.results
          = ((sortByCreatedAtDesc (db.index.filter (matchesSimple
              { userId := uid, query := q, pdfUuid := pdfU
                contentType := if ct == "all" then none
                  else some ct }))).take 20).map
              (formatResult db uid uuids q) := by
  by_cases hlt : jsLength (jsTrim q) < 2
  · left
    simp [search, hlt]
  · by_cases hz : (countByOwner db uid == 0) = true
    · left
      simp [search, hlt, hz]
    · right
      refine ⟨dedupFirst (((sortByCreatedAtDesc (db.index.filter (matchesSimple
          { userId := uid, query := q, pdfUuid := pdfU
            contentType := if ct == "all" then none
              else some ct }))).take 20).map (fun r => r.pdfUuid)), ?_⟩
      simp [search, hlt, hz]

theorem adv_results_shape (uid : Nat) (r : AdvRequest) (q : String)
    (db : DB) (hq : r.query = some q) :
    (advancedSearch uid r db).1.results = []
    ∨ ∃ uuids : List String,
        (advancedSearch uid r db).1.results
          = (((sortByCreatedAtDesc (db.index.filter (matchesAdv
              { userId := uid, query := q, pdfUuids := r.pdfUuids
                contentTypes := r.contentTypes, dateFrom := r.dateFrom
                dateTo := r.dateTo
                pageNumber := r.pageNumber }))).drop
                  ((r.page - 1) * r.limit)).take r.limit).map
              (formatResult db uid uuids q) := by
  by_cases hlt : jsLength (jsTrim q) < 2
  · left
    simp [advancedSearch, hq, hlt]
  · right
    refine ⟨dedupFirst ((((sortByCreatedAtDesc (db.index.filter (matchesAdv
        { userId := uid, query := q, pdfUuids := r.pdfUuids
          contentTypes := r.contentTypes, dateFrom := r.dateFrom
          dateTo := r.dateTo, pageNumber := r.pageNumber }))).drop
            ((r.page - 1) * r.limit)).take r.limit).map
        (fun u => u.pdfUuid)), ?_⟩
    simp [advancedSearch, hq, hlt]

theorem nodup_suggestionTokens (ql : String) (cs : List String) :
    (suggestionTokens ql cs).Nodup := by
  unfold suggestionTokens dedupFirst
  exact nodup_dedupFirstAux [] _

theorem searchNoAnnotationMatches (fail : Highlight → Bool) (uid : Nat)
    (q : String) (pdfU : Option String) (ct : String) (db : DB)
    (hno : ∀ u ∈ db.index, u.userId = uid →
        u.contentType = ContentType.annotation →
        containsCI u.content q = false) :
    ((search fail uid (some q) pdfU ct db).resp.results.filter
        isAnnotationResult) = [] := by
  rcases search_results_shape fail uid q pdfU ct db with hsh | ⟨uuids, hsh⟩
  · rw [hsh]
    rfl
  · rw [hsh]
    apply List.filter_eq_nil_iff.mpr
    intro res hres hann
    rcases result_mem_source hres with ⟨u, hu, hm, hf⟩
    have hct : res.contentType = ContentType.annotation := by
      simpa [isAnnotationResult] using hann
    have huct : u.contentType = ContentType.annotation := by
      rw [← hf] at hct
      exact hct
    have hfalse := hno u hu (matchesSimple_userId hm) huct
    have htrue : containsCI u.content q = true := matchesSimple_content hm
    rw [htrue] at hfalse
    exact Bool.noConfusion hfalse

/-! ## Claim theorems -/

/-- C1: indexing an annotation is idempotent — under the store invariant
that at most one unit exists for `(owner, annotation id)`, two sequential
`indexHighlight` calls leave exactly one unit with that `highlightId` for
that owner, and the second call changes nothing at all. -/
theorem claim_C1 (h : Highlight) (uid : Nat) (db : DB)
    (hinv : (db.index.filter (hlMatch h.uuid uid)).length ≤ 1) :
    ((indexHighlight h uid (indexHighlight h uid db)).index.filter
        (hlMatch h.uuid uid)).length = 1
    ∧ indexHighlight h uid (indexHighlight h uid db) = indexHighlight h uid db := by
  by_cases hany : db.index.any (hlMatch h.uuid uid) = true
  · have h1 : indexHighlight h uid db = db := by
      simp [indexHighlight, hany]
    rw [h1, h1]
    refine ⟨?_, rfl⟩
    rcases List.any_eq_true.mp hany with ⟨u, hu, hp⟩
    have hmem : u ∈ db.index.filter (hlMatch h.uuid uid) :=
      List.mem_filter.mpr ⟨hu, hp⟩
    have hne : db.index.filter (hlMatch h.uuid uid) ≠ [] := by
      intro hnil
      rw [hnil] at hmem
      simp at hmem
    have hpos := List.length_pos.mpr hne
    omega
  · have hfalse : db.index.any (hlMatch h.uuid uid) = false :=
      Bool.not_eq_true _ ▸ Bool.of_not_eq_true hany
    have hmk : hlMatch h.uuid uid (mkUnit db.nextId h uid) = true := by
      simp [hlMatch, mkUnit]
    have h1 : indexHighlight h uid db
        = { db with
            nextId := db.nextId + 1
            index := db.index ++ [mkUnit db.nextId h uid] } := by
      simp [indexHighlight, hfalse]
    have hany2 : (db.index ++ [mkUnit db.nextId h uid]).any
        (hlMatch h.uuid uid) = true := by
      rw [List.any_eq_true]
      exact ⟨mkUnit db.nextId h uid,
        List.mem_append.mpr (Or.inr (List.mem_cons.mpr (Or.inl rfl))), hmk⟩
    have h2 : indexHighlight h uid (indexHighlight h uid db)
        = indexHighlight h uid db := by
      rw [h1]
      simp only [indexHighlight]
      rw [if_pos hany2]
    refine ⟨?_, h2⟩
    rw [h2, h1]
    have hnil : db.index.filter (hlMatch h.uuid uid) = [] :=
      List.filter_eq_nil_iff.mpr
        (fun u hu => by
          have := List.any_eq_false.mp hfalse u hu
          simpa using this)
    simp [List.filter_append, hnil, hmk]

/-- C5: removal frame and round-trip delete — `removeHighlightIndex`
removes at most one unit, every unit not matching `(sourceAnnotationId,
owner)` survives, every `pdf_text` unit survives (they carry no
`highlightId`), and after indexing a highlight into a store with no unit
for it and no annotation unit matching its text, removing it again leaves a
search for its exact text with zero annotation-kind results. -/
theorem claim_C5 (fail : Highlight → Bool) (uid : Nat) (db : DB)
    (hid : String) (h : Highlight) (pdfU : Option String) (ct : String)
    (hWF : ∀ u ∈ db.index,
        u.contentType = ContentType.pdf_text → u.highlightId = none)
    (hclean : ∀ u ∈ db.index, hlMatch h.uuid uid u = false)
    (hnomatch : ∀ u ∈ db.index, u.userId = uid →
        u.contentType = ContentType.annotation →
        containsCI u.content h.highlightedText = false) :
    ((removeHighlightIndex hid uid db).index.length ≤ db.index.length
      ∧ db.index.length ≤ (removeHighlightIndex hid uid db).index.length + 1)
    ∧ (∀ u ∈ db.index, hlMatch hid uid u = false →
        u ∈ (removeHighlightIndex hid uid db).index)
    ∧ (∀ u ∈ db.index, u.contentType = ContentType.pdf_text →
        u ∈ (removeHighlightIndex hid uid db).index)
    ∧ ((search fail uid (some h.highlightedText) pdfU ct
          (removeHighlightIndex h.uuid uid
            (indexHighlight h uid db))).resp.results.filter
        isAnnotationResult) = [] := by
  refine ⟨⟨length_deleteOneUnit_le hid uid db.index,
    length_le_deleteOneUnit hid uid db.index⟩, ?_, ?_, ?_⟩
  · intro u hu hm
    exact mem_deleteOneUnit_of_not_match hu hm
  · intro u hu hpt
    apply mem_deleteOneUnit_of_not_match hu
    have hnone := hWF u hu hpt
    simp [hlMatch, hnone]
  · have hanyf : db.index.any (hlMatch h.uuid uid) = false := by
      apply List.any_eq_false.mpr
      intro u hu
      simp [hclean u hu]
    have hidx : indexHighlight h uid db
        = { db with
            nextId := db.nextId + 1
            index := db.index ++ [mkUnit db.nextId h uid] } := by
      simp [indexHighlight, hanyf]
    have hdel : (removeHighlightIndex h.uuid uid
        (indexHighlight h uid db)).index = db.index := by
      rw [hidx]
      show deleteOneUnit h.uuid uid (db.index ++ [mkUnit db.nextId h uid])
        = db.index
      exact deleteOneUnit_append_singleton hclean (by simp [hlMatch, mkUnit])
    apply searchNoAnnotationMatches
    intro u hu hus hct
    rw [hdel] at hu
    exact hnomatch u hu hus hct

/-- C6 counterexample: with two not-yet-indexed highlights and the first
insert throwing, backfill does NOT continue with the remaining annotation —
`h2` is never even looked up, and no unit for it is created — refuting
"processing continues for the remaining annotations". -/
theorem claim_C6_counterexample :
    ((autoIndexHighlights failC6 1 dbC6).1.index.filter
        (hlMatch "h2" 1)).length = 0
    ∧ StoreOp.findOneIndex "h2" 1 ∉ (autoIndexHighlights failC6 1 dbC6).2 := by
  decide

/-- C6 (amended): when backfill reaches a not-yet-indexed annotation whose
insert fails, the loop stops there — the database is left as it was at that
point and later annotations are not attempted — but the failure is still
not surfaced to the search caller: the triggering search still answers 200
with the `needsIndexing` shape and no error. -/
theorem claim_C6 (fail : Highlight → Bool) (uid : Nat) (db : DB) (q : String)
    (pdfU : Option String) (ct : String) (h : Highlight) (hs : List Highlight)
    (hq : 2 ≤ jsLength (jsTrim q))
    (hcnt : countByOwner db uid = 0)
    (hnotidx : db.index.any (hlMatch h.uuid uid) = false)
    (hfail : fail h = true) :
    autoIndexLoop fail uid (h :: hs) db = (db, [StoreOp.findOneIndex h.uuid uid])
    ∧ (search fail uid (some q) pdfU ct db).resp.status = 200
    ∧ (search fail uid (some q) pdfU ct db).resp.error = none
    ∧ (search fail uid (some q) pdfU ct db).resp.needsIndexing = true := by
  constructor
  · simp only [autoIndexLoop]
    rw [if_neg (by simp [hnotidx]), if_pos hfail]
  · have hlt : ¬ jsLength (jsTrim q) < 2 := by omega
    have hz : (countByOwner db uid == 0) = true := by simp [hcnt]
    simp [search, hlt, hz]

/-- C2: scoped isolation — every result of `search` and `advancedSearch`
comes from a stored unit owned by the requesting user (so no other owner's
unit ever appears), every suggestion token is extracted from a unit owned
by the requesting user, and every content-query filter these operations
issue carries the requesting owner's id. -/
theorem claim_C2 (fail : Highlight → Bool) (uid : Nat) (db : DB)
    (q : Option String) (pdfU : Option String) (ct : String)
    (r : AdvRequest) (sq : Option String) :
    (∀ res ∈ (search fail uid q pdfU ct db).resp.results,
        ∃ u ∈ db.index, u.id = res.id ∧ u.userId = uid)
    ∧ (∀ res ∈ (advancedSearch uid r db).1.results,
        ∃ u ∈ db.index, u.id = res.id ∧ u.userId = uid)
    ∧ (∀ s ∈ (getSuggestions uid sq db).1,
        ∃ u ∈ db.index, u.userId = uid
          ∧ s.text ∈ (jsSplit Char.isWhitespace u.content).map cleanWord)
    ∧ (∀ f : SimpleFilter,
        StoreOp.findIndex f ∈ (search fail uid q pdfU ct db).ops → f.userId = uid)
    ∧ (∀ f : AdvFilter,
        StoreOp.findAdvIndex f ∈ (advancedSearch uid r db).2 → f.userId = uid)
    ∧ (∀ f : SimpleFilter,
        StoreOp.findIndex f ∈ (getSuggestions uid sq db).2 → f.userId = uid) := by
  refine ⟨?_, ?_, ?_, ?_, ?_, ?_⟩
  · intro res hres
    cases q with
    | none => simp [search] at hres
    | some qs =>
      rcases search_results_shape fail uid qs pdfU ct db with hsh | ⟨uuids, hsh⟩
      · rw [hsh] at hres
        simp at hres
      · rw [hsh] at hres
        rcases result_mem_source hres with ⟨u, hu, hm, hf⟩
        refine ⟨u, hu, ?_, matchesSimple_userId hm⟩
        rw [← hf]
        rfl
  · intro res hres
    cases hq : r.query with
    | none => simp [advancedSearch, hq] at hres
    | some qs =>
      rcases adv_results_shape uid r qs db hq with hsh | ⟨uuids, hsh⟩
      · rw [hsh] at hres
        simp at hres
      · rw [hsh] at hres
        rcases result_mem_source_adv hres with ⟨u, hu, hm, hf⟩
        refine ⟨u, hu, ?_, matchesAdv_userId hm⟩
        rw [← hf]
        rfl
  · intro s hs
    cases sq with
    | none => simp [getSuggestions] at hs
    | some qs =>
      by_cases hlen : jsLength qs < 2
      · simp [getSuggestions, hlen] at hs
      · simp only [getSuggestions, if_neg hlen] at hs
        rcases List.mem_map.mp hs with ⟨t, ht, hts⟩
        have ht2 := List.take_subset 5 _ ht
        have ht3 := mem_of_mem_dedupFirstAux ht2
        rcases List.mem_filter.mp ht3 with ⟨ht4, _⟩
        rcases List.mem_flatMap.mp ht4 with ⟨c, hc, htc⟩
        rcases List.mem_map.mp hc with ⟨u, hu, huc⟩
        have hu2 := List.take_subset 5 _ hu
        rcases List.mem_filter.mp hu2 with ⟨humem, hum⟩
        refine ⟨u, humem, matchesSimple_userId hum, ?_⟩
        rw [← hts, huc]
        exact htc
  · intro f hf
    cases q with
    | none => simp [search] at hf
    | some qs =>
      by_cases hlt : jsLength (jsTrim qs) < 2
      · simp [search, hlt] at hf
      · by_cases hz : (countByOwner db uid == 0) = true
        · simp only [search, if_neg hlt, if_pos hz, autoIndexHighlights] at hf
          rcases List.mem_cons.mp hf with hc | hf
          · exact StoreOp.noConfusion hc
          · rcases List.mem_cons.mp hf with hc | hf
            · exact StoreOp.noConfusion hc
            · exact absurd hf (findIndex_not_mem_autoIndexLoop fail uid _ db f)
        · simp only [search, if_neg hlt, if_neg hz] at hf
          rcases List.mem_cons.mp hf with hc | hf
          · exact StoreOp.noConfusion hc
          · rcases List.mem_cons.mp hf with hc | hf
            · cases hc
              rfl
            · simp at hf
  · intro f hf
    cases hq : r.query with
    | none => simp [advancedSearch, hq] at hf
    | some qs =>
      by_cases hlt : jsLength (jsTrim qs) < 2
      · simp [advancedSearch, hq, hlt] at hf
      · simp only [advancedSearch, hq, if_neg hlt] at hf
        rcases List.mem_cons.mp hf with hc | hf
        · cases hc
          rfl
        · simp at hf
  · intro f hf
    cases sq with
    | none => simp [getSuggestions] at hf
    | some qs =>
      by_cases hlen : jsLength qs < 2
      · simp [getSuggestions, hlen] at hf
      · simp only [getSuggestions, if_neg hlen] at hf
        rcases List.mem_cons.mp hf with hc | hf
        · cases hc
          rfl
        · simp at hf

/-- C3: zero-index fallback — a valid simple search by an owner with no
indexed units runs the backfill synchronously (its database effect and its
`findHighlights` query are those of `autoIndexHighlights`), answers 200 with
empty results and `needsIndexing: true`, and never issues the content query
(`findIndex`) for that request. -/
theorem claim_C3 (fail : Highlight → Bool) (uid : Nat) (db : DB) (q : String)
    (pdfU : Option String) (ct : String)
    (hq : 2 ≤ jsLength (jsTrim q))
    (hcnt : countByOwner db uid = 0) :
    (search fail uid (some q) pdfU ct db).resp.status = 200
    ∧ (search fail uid (some q) pdfU ct db).resp.needsIndexing = true
    ∧ (search fail uid (some q) pdfU ct db).resp.results = []
    ∧ (search fail uid (some q) pdfU ct db).db = (autoIndexHighlights fail uid db).1
    ∧ StoreOp.findHighlights uid ∈ (search fail uid (some q) pdfU ct db).ops
    ∧ ∀ f : SimpleFilter,
        StoreOp.findIndex f ∉ (search fail uid (some q) pdfU ct db).ops := by
  have hlt : ¬ jsLength (jsTrim q) < 2 := by omega
  have hz : (countByOwner db uid == 0) = true := by simp [hcnt]
  refine ⟨by simp [search, hlt, hz], by simp [search, hlt, hz],
    by simp [search, hlt, hz], by simp [search, hlt, hz], ?_, ?_⟩
  · simp [search, hlt, hz, autoIndexHighlights]
  · intro f
    simp only [search, if_neg hlt, if_pos hz, autoIndexHighlights]
    intro hmem
    rcases List.mem_cons.mp hmem with hc | hmem
    · exact StoreOp.noConfusion hc
    · rcases List.mem_cons.mp hmem with hc | hmem
      · exact StoreOp.noConfusion hc
      · exact findIndex_not_mem_autoIndexLoop fail uid _ db f hmem

/-- C4: short-query rejection — a missing query or one whose trimmed length
is 0 or 1 makes both `search` and `advancedSearch` answer 400 with the
empty-results shape and issue no storage operation at all, while a trimmed
length of at least 2 is never rejected by this check (both answer 200). -/
theorem claim_C4 (fail : Highlight → Bool) (uid : Nat) (db : DB)
    (pdfU : Option String) (ct : String) (r : AdvRequest) (s : String) :
    ((search fail uid none pdfU ct db).resp.status = 400
      ∧ (search fail uid none pdfU ct db).ops = []
      ∧ (advancedSearch uid { r with query := none } db).1.status = 400
      ∧ (advancedSearch uid { r with query := none } db).2 = [])
    ∧ (jsLength (jsTrim s) < 2 →
        (search fail uid (some s) pdfU ct db).resp.status = 400
        ∧ (search fail uid (some s) pdfU ct db).resp.results = []
        ∧ (search fail uid (some s) pdfU ct db).ops = []
        ∧ (advancedSearch uid { r with query := some s } db).1.status = 400
        ∧ (advancedSearch uid { r with query := some s } db).1.results = []
        ∧ (advancedSearch uid { r with query := some s } db).2 = [])
    ∧ (2 ≤ jsLength (jsTrim s) →
        (search fail uid (some s) pdfU ct db).resp.status = 200
        ∧ (advancedSearch uid { r with query := some s } db).1.status = 200) := by
  refine ⟨?_, ?_, ?_⟩
  · exact ⟨by simp [search], by simp [search], by simp [advancedSearch],
      by simp [advancedSearch]⟩
  · intro hshort
    exact ⟨by simp [search, hshort], by simp [search, hshort],
      by simp [search, hshort], by simp [advancedSearch, hshort],
      by simp [advancedSearch, hshort], by simp [advancedSearch, hshort]⟩
  · intro hlong
    have hlt : ¬ jsLength (jsTrim s) < 2 := by omega
    constructor
    · by_cases hz : (countByOwner db uid == 0) = true
      · simp [search, hlt, hz]
      · simp [search, hlt, hz]
    · simp [advancedSearch, hlt]

/-- C7: term highlighting keeps exactly the query terms of length > 1
("quick", "fox") and wraps each of their occurrences in the content, leaving
"the" and "brown" unwrapped. -/
theorem claim_C7 :
    ((jsSplit (· == ' ') "quick fox").filter (fun t => 1 < jsLength t))
      = ["quick", "fox"]
    ∧ highlightSearchTerms "the quick brown fox" "quick fox"
      = "the <mark>quick</mark> brown <mark>fox</mark>" := by
  decide

/-- C8 counterexample: `getSuggestions` scans the FIRST five matching units
in store order (its query carries no sort), not the five most recent — on a
store whose most recent matching unit is the only one containing "almond",
the claimed most-recent reading yields a different suggestion list, and
"almond" is missing from the actual output. -/
theorem claim_C8_counterexample :
    (getSuggestions 1 (some "al") dbC8).1
      ≠ (getSuggestionsMostRecent 1 (some "al") dbC8).1
    ∧ (getSuggestions 1 (some "al") dbC8).1.all (fun s => s.text ≠ "almond") = true
    ∧ "almond" ∈ ((getSuggestionsMostRecent 1 (some "al") dbC8).1.map
        (fun s => s.text)) := by
  decide

/-- C8 (amended): suggestion extraction scans the FIRST up-to-5 matching
units in store order (the source issues no recency sort on this query);
each returned suggestion has placeholder count 1, starts with the
lower-cased query, is strictly longer than it, and is a cleaned whitespace
token of one of those scanned units; at most 5 distinct tokens are
returned, and a query shorter than 2 characters yields an empty list. -/
theorem claim_C8 (uid : Nat) (db : DB) (q : String)
    (hq : 2 ≤ jsLength q) :
    (getSuggestions uid (some q) db).1.length ≤ 5
    ∧ (∀ s ∈ (getSuggestions uid (some q) db).1,
        s.count = 1
        ∧ (jsToLower q).toList.isPrefixOf s.text.toList = true
        ∧ jsLength (jsToLower q) < jsLength s.text
        ∧ ∃ u ∈ (db.index.filter (matchesSimple
            { userId := uid, query := q, pdfUuid := none,
              contentType := none })).take 5,
            s.text ∈ (jsSplit Char.isWhitespace u.content).map cleanWord)
    ∧ ((getSuggestions uid (some q) db).1.map (fun s => s.text)).Nodup
    ∧ (∀ q2 : String, jsLength q2 < 2 →
        (getSuggestions uid (some q2) db).1 = []) := by
  have hlen : ¬ jsLength q < 2 := by omega
  refine ⟨?_, ?_, ?_, ?_⟩
  · simp only [getSuggestions, if_neg hlen]
    calc (((suggestionTokens (jsToLower q) _).take 5).map
        (fun t => ({ text := t, count := 1 } : Suggestion))).length
        = ((suggestionTokens (jsToLower q) _).take 5).length :=
          List.length_map _ _
      _ ≤ 5 := by
          rw [List.length_take]
          exact Nat.min_le_left 5 _
  · intro s hs
    simp only [getSuggestions, if_neg hlen] at hs
    rcases List.mem_map.mp hs with ⟨t, ht, hts⟩
    have ht2 := List.take_subset 5 _ ht
    have ht3 := mem_of_mem_dedupFirstAux ht2
    rcases List.mem_filter.mp ht3 with ⟨ht4, hpred⟩
    rw [Bool.and_eq_true] at hpred
    rcases hpred with ⟨hpre, hlonger⟩
    rcases List.mem_flatMap.mp ht4 with ⟨c, hc, htc⟩
    rcases List.mem_map.mp hc with ⟨u, hu, huc⟩
    refine ⟨by rw [← hts], ?_, ?_, u, hu, ?_⟩
    · rw [← hts]
      exact hpre
    · rw [← hts]
      exact of_decide_eq_true hlonger
    · rw [← hts, huc]
      exact htc
  · have hmap : ((getSuggestions uid (some q) db).1.map (fun s => s.text))
        = (suggestionTokens (jsToLower q)
            (((db.index.filter (matchesSimple
              { userId := uid, query := q, pdfUuid := none,
                contentType := none })).take 5).map
              (fun u => u.content))).take 5 := by
      simp [getSuggestions, if_neg hlen, List.map_map, Function.comp_def]
    rw [hmap]
    exact List.Nodup.sublist (List.take_sublist 5 _) (nodup_suggestionTokens _ _)
  · intro q2 h2
    simp [getSuggestions, h2]

/-- C9: fuzzy flag honesty — every valid advanced search, whatever the
`fuzzy` flag in the request, reports `fuzzy: false` in its response, and
every returned result's content contains the query as a plain
case-insensitive substring, so content matching only under typo-tolerant
comparison yields zero results. -/
theorem claim_C9 (uid : Nat) (db : DB) (r : AdvRequest) (q : String)
    (hq : r.query = some q) (hlen : 2 ≤ jsLength (jsTrim q)) :
    (advancedSearch uid r db).1.fuzzy = some false
    ∧ ∀ res ∈ (advancedSearch uid r db).1.results,
        containsCI res.content q = true := by
  have hlt : ¬ jsLength (jsTrim q) < 2 := by omega
  constructor
  · simp [advancedSearch, hq, hlt]
  · intro res hres
    rcases adv_results_shape uid r q db hq with hsh | ⟨uuids, hsh⟩
    · rw [hsh] at hres
      simp at hres
    · rw [hsh] at hres
      rcases result_mem_source_adv hres with ⟨u, hu, hm, hf⟩
      have hc : containsCI u.content q = true := matchesAdv_content hm
      rw [← hf]
      exact hc

/-- C10 (code bug evaluated): deleting a highlight uuid that does not exist
for the requesting owner dereferences the null lookup result
(`highlight.uuid`) before the `if (!highlight)` check, so the flow ends in
a thrown TypeError forwarded to `next(error)` — a server error — and the
NotFound branch is never reached. -/
theorem claim_C10 :
    (deleteHighlight "h9" 1 dbC10).1 = DeleteOutcome.serverError
    ∧ (deleteHighlight "h9" 1 dbC10).1 ≠ DeleteOutcome.notFound := by
  decide

end PdfAnnotator

namespace PdfAnnotator

/-! ## Witnesses -/

/-- Witness for C1 at a concrete store already holding the unit. -/
theorem claim_C1_witness :
    (dbC2.index.filter (hlMatch hlW.uuid 1)).length ≤ 1
    ∧ ((indexHighlight hlW 1 (indexHighlight hlW 1 dbC2)).index.filter
        (hlMatch hlW.uuid 1)).length = 1 :=
  ⟨by decide, (claim_C1 hlW 1 dbC2 (by decide)).1⟩

/-- Witness for C2: the one result user 1's search returns over `dbC2`
comes from a unit user 1 owns. -/
theorem claim_C2_witness :
    ∃ u ∈ dbC2.index, u.id = resC2.id ∧ u.userId = 1 :=
  (claim_C2 (fun _ => false) 1 dbC2 (some "hello") none "all"
    { query := none } (some "he")).1 resC2 (by decide)

/-- Witness for C3 on a store with an empty index. -/
theorem claim_C3_witness :
    (search (fun _ => false) 1 (some "machine") none "all" dbC3).resp.status = 200
    ∧ (search (fun _ => false) 1 (some "machine") none "all"
        dbC3).resp.needsIndexing = true :=
  ⟨(claim_C3 (fun _ => false) 1 dbC3 "machine" none "all"
      (by decide) (by decide)).1,
    (claim_C3 (fun _ => false) 1 dbC3 "machine" none "all"
      (by decide) (by decide)).2.1⟩

/-- Witness for C4 with the one-character query "a" and the valid query
"ok". -/
theorem claim_C4_witness :
    (search (fun _ => false) 1 (some "a") none "all" dbC2).resp.status = 400
    ∧ (search (fun _ => false) 1 (some "a") none "all" dbC2).ops = []
    ∧ (advancedSearch 1 { query := some "a" } dbC2).1.status = 400
    ∧ (search (fun _ => false) 1 (some "ok") none "all" dbC2).resp.status = 200 := by
  have hshort := (claim_C4 (fun _ => false) 1 dbC2 none "all"
    { query := none } "a").2.1 (by decide)
  have hlong := (claim_C4 (fun _ => false) 1 dbC2 none "all"
    { query := none } "ok").2.2 (by decide)
  exact ⟨hshort.1, hshort.2.2.1, hshort.2.2.2.1, hlong.1⟩

/-- Witness for C5: on `dbC5` the delete touches at most one unit and the
round trip leaves zero annotation-kind matches. -/
theorem claim_C5_witness :
    ((removeHighlightIndex "hx" 1 dbC5).index.length ≤ dbC5.index.length
      ∧ dbC5.index.length ≤ (removeHighlightIndex "hx" 1 dbC5).index.length + 1)
    ∧ ((search (fun _ => false) 1 (some hlC5.highlightedText) none "all"
        (removeHighlightIndex hlC5.uuid 1
          (indexHighlight hlC5 1 dbC5))).resp.results.filter
        isAnnotationResult) = [] := by
  have h := claim_C5 (fun _ => false) 1 dbC5 "hx" hlC5 none "all"
    (by decide) (by decide) (by decide)
  exact ⟨h.1, h.2.2.2⟩

/-- Witness for C6 on the concrete two-highlight store. -/
theorem claim_C6_witness :
    autoIndexLoop failC6 1 [hlC6a, hlC6b] dbC6
      = (dbC6, [StoreOp.findOneIndex hlC6a.uuid 1])
    ∧ (search failC6 1 (some "alpha") none "all" dbC6).resp.status = 200
    ∧ (search failC6 1 (some "alpha") none "all" dbC6).resp.error = none := by
  have h := claim_C6 failC6 1 dbC6 "alpha" none "all" hlC6a [hlC6b]
    (by decide) (by decide) (by decide) (by decide)
  exact ⟨h.1, h.2.1, h.2.2.1⟩

/-- Witness for C8 (amended) on the six-unit store. -/
theorem claim_C8_witness :
    (getSuggestions 1 (some "al") dbC8).1.length ≤ 5
    ∧ ((getSuggestions 1 (some "al") dbC8).1.map (fun s => s.text)).Nodup := by
  have h := claim_C8 1 dbC8 "al" (by decide)
  exact ⟨h.1, h.2.2.1⟩

/-- Witness for C9: a request with `fuzzy: true` against content matching
"machine" only up to typos reports `fuzzy: false` and returns nothing. -/
theorem claim_C9_witness :
    (advancedSearch 1 { query := some "machine", fuzzy := true }
      dbC9).1.fuzzy = some false
    ∧ (advancedSearch 1 { query := some "machine", fuzzy := true }
      dbC9).1.results = [] := by
  have h := claim_C9 1 dbC9 { query := some "machine", fuzzy := true }
    "machine" rfl (by decide)
  exact ⟨h.1, by decide⟩

end PdfAnnotator
